import Mathlib

/-!
Shallow embedding of the position/account ledger in `src/account.py`
(`PositionManager` and its record types `Trade` and `TradeLog`).

Modelling conventions:
- Python `Decimal` amounts and prices are modelled as exact rationals (ℚ).
- Python `int` share counts are modelled as ℤ (Python ints are unbounded).
- Python `float(...)` casts used for display fields are modelled as the
  identity on ℚ (they do not feed back into ledger state).
- Timestamps are opaque and modelled as ℕ.
- Methods that mutate `self` become functions from the state to a new state;
  `sell` returns the pair of its Python return value and the new state.
- Default arguments are passed explicitly at every call site, with the
  value the Python source supplies or defaults to.
-/

/-- Model of the Python dataclass `Trade` (src/account.py lines 6-13). -/
structure Trade where
  time : Nat
  action : String
  price : ℚ
  quantity : ℤ
  reason : String
  profit : ℚ := 0

deriving instance DecidableEq for Trade

/-- Model of the Python dataclass `TradeLog` (src/account.py lines 15-28). -/
structure TradeLog where
  time : Nat
  action : String
  price : ℚ
  quantity : ℤ
  reason : String
  profit : ℚ := 0
  position : ℤ := 0
  cost_price : ℚ := 0
  market_value : ℚ := 0
  available_capital : ℚ := 0
  account_value : ℚ := 0
  total_profit : ℚ := 0

deriving instance DecidableEq for TradeLog

/-- One holdings entry: the Python code stores dicts with keys
time, price, quantity (src/account.py lines 102-106). -/
structure Lot where
  time : Nat
  price : ℚ
  quantity : ℤ

deriving instance DecidableEq for Lot

/-- Model of the mutable state of the Python class `PositionManager`
(src/account.py lines 30-42). -/
structure PositionManager where
  position : ℤ
  total_cost : ℚ
  avg_cost_price : ℚ
  trades : List Trade
  holdings : List Lot
  trade_logs : List TradeLog
  last_price : ℚ
  initial_capital : ℚ
  available_capital : ℚ

deriving instance DecidableEq for PositionManager

/-- Constructor `PositionManager.__init__` (src/account.py lines 31-42),
with the initial capital passed explicitly. -/
def PositionManager.init (initial_capital : ℚ) : PositionManager :=
  { position := 0
    total_cost := 0
    avg_cost_price := 0
    trades := []
    holdings := []
    trade_logs := []
    last_price := 0
    initial_capital := initial_capital
    available_capital := initial_capital }

/-- `get_average_cost_price` (src/account.py lines 62-64). -/
def PositionManager.get_average_cost_price (pm : PositionManager) : ℚ :=
  pm.avg_cost_price

/-- `get_market_value` (src/account.py lines 66-68). -/
def PositionManager.get_market_value (pm : PositionManager) : ℚ :=
  pm.last_price * (pm.position : ℚ)

/-- `get_available_capital` (src/account.py lines 70-72). -/
def PositionManager.get_available_capital (pm : PositionManager) : ℚ :=
  pm.available_capital

/-- `get_account_value` (src/account.py lines 74-76). -/
def PositionManager.get_account_value (pm : PositionManager) : ℚ :=
  pm.get_market_value + pm.available_capital

/-- `get_total_profit` (src/account.py lines 78-80). -/
def PositionManager.get_total_profit (pm : PositionManager) : ℚ :=
  pm.get_account_value - pm.initial_capital

/-- `update_price` (src/account.py lines 82-84). -/
def PositionManager.update_price (pm : PositionManager) (price : ℚ) :
    PositionManager :=
  { pm with last_price := price }

/-- `_log_trade` (src/account.py lines 44-60): appends a `TradeLog`
snapshot built from the current (already mutated) state. The Python
`float(...)` casts are modelled as the identity. -/
def PositionManager.log_trade (pm : PositionManager) (time : Nat)
    (action : String) (price : ℚ) (quantity : ℤ) (reason : String)
    (profit : ℚ) : PositionManager :=
  { pm with trade_logs := pm.trade_logs ++
      [{ time := time
         action := action
         price := price
         quantity := quantity
         reason := reason
         profit := profit
         position := pm.position
         cost_price := pm.get_average_cost_price
         market_value := price * (pm.position : ℚ)
         available_capital := pm.available_capital
         account_value := pm.get_account_value
         total_profit := pm.get_total_profit }] }

/-- `buy` (src/account.py lines 86-116). The guard `cost >
self.available_capital` makes the method return immediately (the Python
`raise` after the `return` is dead code); otherwise the ledger fields are
updated, a lot is appended to `holdings`, a `Trade` (profit left at its
default 0) is appended to `trades`, and `_log_trade` runs with its default
profit argument 0. -/
def PositionManager.buy (pm : PositionManager) (time : Nat) (price : ℚ)
    (quantity : ℤ) (reason : String) : PositionManager :=
  let cost := price * (quantity : ℚ)
  if pm.available_capital < cost then
    pm
  else
    let total_cost := pm.total_cost + cost
    let position := pm.position + quantity
    let pm1 : PositionManager :=
      { pm with
        total_cost := total_cost
        position := position
        last_price := price
        available_capital := pm.available_capital - cost
        avg_cost_price := total_cost / (position : ℚ)
        holdings := pm.holdings ++
          [{ time := time, price := price, quantity := quantity }]
        trades := pm.trades ++
          [{ time := time, action := "买入", price := price,
             quantity := quantity, reason := reason }] }
    pm1.log_trade time "买入" price quantity reason 0

/-- Helper loop of `_update_holdings` (src/account.py lines 152-172):
walk the lot list front to back with the remaining quantity to consume,
dropping fully consumed lots and truncating a partially consumed one. -/
def update_holdings_go : ℤ → List Lot → List Lot
  | _, [] => []
  | remaining, h :: t =>
    if remaining ≤ 0 then
      h :: update_holdings_go remaining t
    else if h.quantity ≤ remaining then
      update_holdings_go (remaining - h.quantity) t
    else
      { h with quantity := h.quantity - remaining } :: update_holdings_go 0 t

/-- `_update_holdings` (src/account.py lines 152-172) as a function on the
holdings list. -/
def update_holdings (holdings : List Lot) (quantity : ℤ) : List Lot :=
  update_holdings_go quantity holdings

/-- `sell` (src/account.py lines 118-150). The guard `self.position <
quantity` returns 0 without any change (the `raise` after it is dead
code). On success the profit is computed from the pre-sale average cost
price, the `Trade` is appended without passing the profit (so the field
keeps its default 0), the log entry gets the computed profit, and the
method returns the literal `0` (line 150: `return 0 #profit`). The
result pair is (returned value, new state). -/
def PositionManager.sell (pm : PositionManager) (time : Nat) (price : ℚ)
    (quantity : ℤ) (reason : String) : ℚ × PositionManager :=
  if pm.position < quantity then
    (0, pm)
  else
    let total_cost := pm.total_cost - price * (quantity : ℚ)
    let position := pm.position - quantity
    let profit := (price - pm.avg_cost_price) * (quantity : ℚ)
    let avg := if position ≠ 0 then total_cost / (position : ℚ) else price
    let pm1 : PositionManager :=
      { pm with
        total_cost := total_cost
        position := position
        last_price := price
        available_capital := pm.available_capital + price * (quantity : ℚ)
        avg_cost_price := avg
        holdings := update_holdings pm.holdings quantity
        trades := pm.trades ++
          [{ time := time, action := "卖出", price := price,
             quantity := quantity, reason := reason }] }
    (0, pm1.log_trade time "卖出" price quantity reason profit)

/-- One ledger call, for stating properties over call sequences. -/
inductive Op where
  | buy (time : Nat) (price : ℚ) (quantity : ℤ) (reason : String)
  | sell (time : Nat) (price : ℚ) (quantity : ℤ) (reason : String)
  | updatePrice (price : ℚ)

/-- The preconditions the spec puts on every call: positive price, and
positive quantity for the trading calls. -/
def Op.valid : Op → Prop
  | .buy _ p q _ => 0 < p ∧ 0 < q
  | .sell _ p q _ => 0 < p ∧ 0 < q
  | .updatePrice p => 0 < p

instance : DecidablePred Op.valid := fun op =>
  match op with
  | .buy _ p q _ => inferInstanceAs (Decidable (0 < p ∧ 0 < q))
  | .sell _ p q _ => inferInstanceAs (Decidable (0 < p ∧ 0 < q))
  | .updatePrice p => inferInstanceAs (Decidable (0 < p))

/-- Apply one ledger call (the return value of `sell` is discarded). -/
def applyOp (pm : PositionManager) : Op → PositionManager
  | .buy t p q r => pm.buy t p q r
  | .sell t p q r => (pm.sell t p q r).2
  | .updatePrice p => pm.update_price p

/-- Run a sequence of ledger calls from a state. -/
def runOps (pm : PositionManager) : List Op → PositionManager
  | [] => pm
  | op :: rest => runOps (applyOp pm op) rest

/-- Total quantity held across the lots of a holdings list. -/
def holdingsSum (l : List Lot) : ℤ :=
  (l.map Lot.quantity).sum

/-! Helper lemmas about `holdingsSum` and the FIFO consumption loop. -/

theorem holdingsSum_nil : holdingsSum [] = 0 := rfl

theorem holdingsSum_cons (x : Lot) (t : List Lot) :
    holdingsSum (x :: t) = x.quantity + holdingsSum t := by
  simp [holdingsSum]

theorem holdingsSum_append (l₁ l₂ : List Lot) :
    holdingsSum (l₁ ++ l₂) = holdingsSum l₁ + holdingsSum l₂ := by
  simp [holdingsSum]

theorem update_holdings_go_nonpos (l : List Lot) (remaining : ℤ)
    (h : remaining ≤ 0) : update_holdings_go remaining l = l := by
  induction l with
  | nil => rfl
  | cons x t ih => simp [update_holdings_go, h, ih]

theorem holdingsSum_update_holdings_go (l : List Lot) : ∀ remaining : ℤ,
    0 ≤ remaining → remaining ≤ holdingsSum l →
    holdingsSum (update_holdings_go remaining l) = holdingsSum l - remaining := by
  induction l with
  | nil =>
    intro remaining h0 hle
    simp [update_holdings_go, holdingsSum] at hle ⊢
    omega
  | cons x t ih =>
    intro remaining h0 hle
    rw [holdingsSum_cons] at hle
    by_cases hr : remaining ≤ 0
    · have hz : remaining = 0 := le_antisymm hr h0
      subst hz
      rw [update_holdings_go_nonpos _ 0 le_rfl]
      omega
    · push_neg at hr
      by_cases hx : x.quantity ≤ remaining
      · have h1 : 0 ≤ remaining - x.quantity := by omega
        have h2 : remaining - x.quantity ≤ holdingsSum t := by omega
        simp only [update_holdings_go, if_neg (by omega : ¬ remaining ≤ 0),
          if_pos hx]
        rw [ih _ h1 h2, holdingsSum_cons]
        ring
      · simp only [update_holdings_go, if_neg (by omega : ¬ remaining ≤ 0),
          if_neg hx]
        rw [holdingsSum_cons, update_holdings_go_nonpos _ 0 le_rfl,
          holdingsSum_cons]
        simp only
        omega

/-- C4: a `buy` whose cost `price * quantity` exceeds the available capital
returns the ledger state unchanged: no field is mutated, nothing is
appended to the trade history or the trade log, and (the model being a
total function, mirroring the early `return` before the dead `raise`)
no exception is raised. -/
theorem buy_insufficient_capital_noop (pm : PositionManager) (t : Nat)
    (p : ℚ) (q : ℤ) (r : String)
    (h : pm.available_capital < p * (q : ℚ)) :
    pm.buy t p q r = pm := by
  simp [PositionManager.buy, h]

/-- Witness for C4: Scenario D, `buy(price=100, qty=200)` against a fresh
ledger with capital 10000 is a no-op. -/
theorem buy_insufficient_capital_noop_witness :
    (PositionManager.init 10000).available_capital < 100 * ((200 : ℤ) : ℚ) ∧
    (PositionManager.init 10000).buy 1 100 200 "" = PositionManager.init 10000 :=
  ⟨by norm_num [PositionManager.init],
   buy_insufficient_capital_noop (PositionManager.init 10000) 1 100 200 ""
     (by norm_num [PositionManager.init])⟩

/-- C5: a `sell` whose quantity exceeds the current position returns the
pair (0, unchanged state): every ledger field and both histories are left
untouched, the returned value is zero, and no exception is raised (the
`raise` after the early `return 0` is dead code). -/
theorem sell_insufficient_position_noop (pm : PositionManager) (t : Nat)
    (p : ℚ) (q : ℤ) (r : String) (h : pm.position < q) :
    pm.sell t p q r = (0, pm) := by
  simp [PositionManager.sell, h]

/-- Witness for C5: selling 5 shares from a fresh (empty) ledger is a
no-op that returns 0. -/
theorem sell_insufficient_position_noop_witness :
    (PositionManager.init 10000).position < 5 ∧
    (PositionManager.init 10000).sell 1 100 5 "" = (0, PositionManager.init 10000) :=
  ⟨by norm_num [PositionManager.init],
   sell_insufficient_position_noop (PositionManager.init 10000) 1 100 5 ""
     (by norm_num [PositionManager.init])⟩

/-- C8: a successful `buy` (cost not exceeding the available capital)
increases `total_cost` by `price * quantity` and `position` by
`quantity`, decreases `available_capital` by the cost, sets `last_price`
to the price, recomputes `avg_cost_price` as the new `total_cost`
divided by the new `position`, appends the lot to `holdings`, appends a
`Trade` whose profit field is 0, and appends one `TradeLog` entry whose
profit is 0. -/
theorem buy_success_postconditions (pm : PositionManager) (t : Nat)
    (p : ℚ) (q : ℤ) (r : String)
    (h : p * (q : ℚ) ≤ pm.available_capital) :
    (pm.buy t p q r).total_cost = pm.total_cost + p * (q : ℚ) ∧
    (pm.buy t p q r).position = pm.position + q ∧
    (pm.buy t p q r).available_capital = pm.available_capital - p * (q : ℚ) ∧
    (pm.buy t p q r).last_price = p ∧
    (pm.buy t p q r).avg_cost_price
      = (pm.buy t p q r).total_cost / ((pm.buy t p q r).position : ℚ) ∧
    (pm.buy t p q r).holdings
      = pm.holdings ++ [{ time := t, price := p, quantity := q }] ∧
    (pm.buy t p q r).trades
      = pm.trades ++ [{ time := t, action := "买入", price := p,
                        quantity := q, reason := r, profit := 0 }] ∧
    (pm.buy t p q r).trade_logs.map TradeLog.profit
      = pm.trade_logs.map TradeLog.profit ++ [0] := by
  have h' : ¬ pm.available_capital < p * (q : ℚ) := not_lt.mpr h
  refine ⟨?_, ?_, ?_, ?_, ?_, ?_, ?_, ?_⟩ <;>
    simp [PositionManager.buy, PositionManager.log_trade, h']

/-- Witness for C8 at Scenario A: `initialCapital = 10000`,
`buy(t1, price=100, qty=10)` gives position 10, available capital 9000
and average cost price 100. -/
theorem buy_success_postconditions_witness :
    100 * ((10 : ℤ) : ℚ) ≤ (PositionManager.init 10000).available_capital ∧
    ((PositionManager.init 10000).buy 1 100 10 "").position = 10 ∧
    ((PositionManager.init 10000).buy 1 100 10 "").available_capital = 9000 ∧
    ((PositionManager.init 10000).buy 1 100 10 "").avg_cost_price = 100 ∧
    ((PositionManager.init 10000).buy 1 100 10 "").total_cost
      = (PositionManager.init 10000).total_cost + 100 * ((10 : ℤ) : ℚ) := by
  have h : 100 * ((10 : ℤ) : ℚ) ≤ (PositionManager.init 10000).available_capital := by
    norm_num [PositionManager.init]
  have hpost := buy_success_postconditions (PositionManager.init 10000) 1 100 10 "" h
  refine ⟨h, ?_, ?_, ?_, hpost.1⟩
  · rw [hpost.2.1]; norm_num [PositionManager.init]
  · rw [hpost.2.2.1]; norm_num [PositionManager.init]
  · rw [hpost.2.2.2.2.1, hpost.1, hpost.2.1]; norm_num [PositionManager.init]

/-- C3 counterexample: in Scenario C (buy 10 at 100 from capital 10000,
then sell 10 at 110) the realized profit is 100 and the appended
`TradeLog` entry records it, but the `Trade` record appended by `sell`
carries profit 0, because the Python code builds the `Trade` without
passing the computed profit. -/
theorem sell_trade_profit_not_realized_cex :
    ((((PositionManager.init 10000).buy 1 100 10 "").sell 2 110 10 "").2.trades.map
        Trade.profit = [0, 0]) ∧
    ((110 - ((PositionManager.init 10000).buy 1 100 10 "").avg_cost_price)
        * ((10 : ℤ) : ℚ) = 100) ∧
    ((((PositionManager.init 10000).buy 1 100 10 "").sell 2 110 10 "").2.trade_logs.map
        TradeLog.profit = [0, 100]) := by
  refine ⟨?_, ?_, ?_⟩ <;>
    norm_num [PositionManager.init, PositionManager.buy, PositionManager.sell,
      PositionManager.log_trade, PositionManager.get_average_cost_price,
      PositionManager.get_account_value, PositionManager.get_market_value,
      PositionManager.get_total_profit]

/-- C3 amended: for every successful sell, the `TradeLog` entry appended
to the trade log carries the realized profit computed from the pre-sale
weighted average cost, while the `Trade` appended to the trade history
carries profit 0 (its default), for sells just as for buys. -/
theorem sell_trade_and_log_profits (pm : PositionManager) (t : Nat)
    (p : ℚ) (q : ℤ) (r : String) (h : q ≤ pm.position) :
    (pm.sell t p q r).2.trades.map Trade.profit
      = pm.trades.map Trade.profit ++ [0] ∧
    (pm.sell t p q r).2.trade_logs.map TradeLog.profit
      = pm.trade_logs.map TradeLog.profit
          ++ [(p - pm.avg_cost_price) * (q : ℚ)] := by
  have h' : ¬ pm.position < q := not_lt.mpr h
  constructor <;> simp [PositionManager.sell, PositionManager.log_trade, h']

/-- Witness for the amended C3 at Scenario C. -/
theorem sell_trade_and_log_profits_witness :
    (10 : ℤ) ≤ ((PositionManager.init 10000).buy 1 100 10 "").position ∧
    ((((PositionManager.init 10000).buy 1 100 10 "").sell 2 110 10 "").2.trades.map
        Trade.profit
      = ((PositionManager.init 10000).buy 1 100 10 "").trades.map Trade.profit
          ++ [0]) ∧
    ((((PositionManager.init 10000).buy 1 100 10 "").sell 2 110 10 "").2.trade_logs.map
        TradeLog.profit
      = ((PositionManager.init 10000).buy 1 100 10 "").trade_logs.map TradeLog.profit
          ++ [(110 - ((PositionManager.init 10000).buy 1 100 10 "").avg_cost_price)
                * ((10 : ℤ) : ℚ)]) := by
  have h : (10 : ℤ) ≤ ((PositionManager.init 10000).buy 1 100 10 "").position := by
    norm_num [PositionManager.init, PositionManager.buy, PositionManager.log_trade]
  exact ⟨h, sell_trade_and_log_profits ((PositionManager.init 10000).buy 1 100 10 "")
    2 110 10 "" h⟩

/-- C1: the code returns the literal 0 from every `sell` call (line 150 of
src/account.py is `return 0 #profit`), contradicting the docstring of the
method and the claim: in Scenario C the realized profit is 100 (it is even
stored in the appended `TradeLog` entry) yet the returned value is 0. -/
theorem sell_return_is_zero_scenario_c :
    (∀ (pm : PositionManager) (t : Nat) (p : ℚ) (q : ℤ) (r : String),
        (pm.sell t p q r).1 = 0) ∧
    ((((PositionManager.init 10000).buy 1 100 10 "").sell 2 110 10 "").1 = 0) ∧
    ((110 - ((PositionManager.init 10000).buy 1 100 10 "").avg_cost_price)
        * ((10 : ℤ) : ℚ) = 100) ∧
    ((((PositionManager.init 10000).buy 1 100 10 "").sell 2 110 10 "").2.trade_logs.map
        TradeLog.profit = [0, 100]) := by
  refine ⟨fun pm t p q r => ?_, ?_, ?_, ?_⟩
  · by_cases hc : pm.position < q <;> simp [PositionManager.sell, hc]
  all_goals
    norm_num [PositionManager.init, PositionManager.buy, PositionManager.sell,
      PositionManager.log_trade, PositionManager.get_average_cost_price,
      PositionManager.get_account_value, PositionManager.get_market_value,
      PositionManager.get_total_profit]

/-- C2: the code does not reset `total_cost` to 0 on a full exit. In
Scenario C the sell that empties the position leaves `total_cost = -100`
(the code subtracts the sale proceeds `price * quantity`, not the cost
basis), and a subsequent buy of 10 shares at price 50 carries the stale
residue, producing an average cost price of 40 instead of 50. -/
theorem total_cost_not_reset_after_full_exit :
    ((((PositionManager.init 10000).buy 1 100 10 "").sell 2 110 10 "").2.position
      = 0) ∧
    ((((PositionManager.init 10000).buy 1 100 10 "").sell 2 110 10 "").2.total_cost
      = -100) ∧
    (((((PositionManager.init 10000).buy 1 100 10 "").sell 2 110 10 "").2.buy
        3 50 10 "").total_cost = 400) ∧
    (((((PositionManager.init 10000).buy 1 100 10 "").sell 2 110 10 "").2.buy
        3 50 10 "").avg_cost_price = 40) := by
  refine ⟨?_, ?_, ?_, ?_⟩ <;>
    norm_num [PositionManager.init, PositionManager.buy, PositionManager.sell,
      PositionManager.log_trade, PositionManager.get_average_cost_price,
      PositionManager.get_account_value, PositionManager.get_market_value,
      PositionManager.get_total_profit]

/-- C9: the code performs no validation of price or quantity. A buy with
the non-positive price -1 on a fresh ledger executes through the normal
path (the negative cost passes the capital check), mutating the state and
appending to the histories; a sell with price -5 on a held position
likewise executes. No InvalidArgument failure exists in the code. -/
theorem malformed_inputs_execute :
    (((PositionManager.init 10000).buy 1 (-1) 1 "").position = 1 ∧
     ((PositionManager.init 10000).buy 1 (-1) 1 "").available_capital = 10001 ∧
     ((PositionManager.init 10000).buy 1 (-1) 1 "").trades.length = 1) ∧
    ((((PositionManager.init 10000).buy 1 100 10 "").sell 2 (-5) 2 "").2.position
        = 8 ∧
     (((PositionManager.init 10000).buy 1 100 10 "").sell 2 (-5) 2 "").2.available_capital
        = 8990) := by
  refine ⟨⟨?_, ?_, ?_⟩, ?_, ?_⟩ <;>
    norm_num [PositionManager.init, PositionManager.buy, PositionManager.sell,
      PositionManager.log_trade, PositionManager.get_average_cost_price,
      PositionManager.get_account_value, PositionManager.get_market_value,
      PositionManager.get_total_profit]

/-- C7: a round trip on a fresh ledger — buy q shares at p1 (affordable),
then sell the q shares at p2 — leaves total profit (p2 - p1) * q, an
empty position, and available capital initialCapital + (p2 - p1) * q. -/
theorem round_trip_conservation (c p1 p2 : ℚ) (q : ℤ) (t1 t2 : Nat)
    (hq : 0 < q) (hp1 : 0 < p1) (hp2 : 0 < p2)
    (hc : p1 * (q : ℚ) ≤ c) :
    ((((PositionManager.init c).buy t1 p1 q "").sell t2 p2 q "").2.get_total_profit
      = (p2 - p1) * (q : ℚ)) ∧
    ((((PositionManager.init c).buy t1 p1 q "").sell t2 p2 q "").2.position = 0) ∧
    ((((PositionManager.init c).buy t1 p1 q "").sell t2 p2 q "").2.available_capital
      = c + (p2 - p1) * (q : ℚ)) := by
  have h1 : ¬ c < p1 * (q : ℚ) := not_lt.mpr hc
  refine ⟨?_, ?_, ?_⟩ <;>
    simp [PositionManager.init, PositionManager.buy, PositionManager.sell,
      PositionManager.log_trade, PositionManager.get_total_profit,
      PositionManager.get_account_value, PositionManager.get_market_value, h1] <;>
    ring

/-- Witness for C7: capital 10000, buy 10 at 100, sell 10 at 110. -/
theorem round_trip_conservation_witness :
    (0 : ℤ) < 10 ∧ (0 : ℚ) < 100 ∧ (0 : ℚ) < 110 ∧
    (100 : ℚ) * ((10 : ℤ) : ℚ) ≤ 10000 ∧
    ((((PositionManager.init 10000).buy 1 100 10 "").sell 2 110 10 "").2.get_total_profit
      = (110 - 100) * ((10 : ℤ) : ℚ)) ∧
    ((((PositionManager.init 10000).buy 1 100 10 "").sell 2 110 10 "").2.position
      = 0) ∧
    ((((PositionManager.init 10000).buy 1 100 10 "").sell 2 110 10 "").2.available_capital
      = 10000 + (110 - 100) * ((10 : ℤ) : ℚ)) :=
  ⟨by norm_num, by norm_num, by norm_num, by norm_num,
   round_trip_conservation 10000 100 110 10 1 2 (by norm_num) (by norm_num)
     (by norm_num) (by norm_num)⟩

/-- One ledger call with positive price (and positive quantity for the
trading calls) keeps the available capital non-negative: a buy either
rejects or spends at most what is available, a sell either rejects or
adds the positive proceeds, and a price update does not touch capital. -/
theorem applyOp_capital_nonneg (pm : PositionManager) (op : Op)
    (hop : op.valid) (h : 0 ≤ pm.available_capital) :
    0 ≤ (applyOp pm op).available_capital := by
  cases op with
  | updatePrice p => simpa [applyOp, PositionManager.update_price]
  | buy t p q r =>
    by_cases hb : pm.available_capital < p * (q : ℚ)
    · simpa [applyOp, PositionManager.buy, hb]
    · simp only [applyOp, PositionManager.buy, if_neg hb, PositionManager.log_trade]
      push_neg at hb
      linarith
  | sell t p q r =>
    by_cases hs : pm.position < q
    · simpa [applyOp, PositionManager.sell, hs]
    · obtain ⟨hp, hq⟩ := hop
      have hpq : (0 : ℚ) < p * (q : ℚ) := by
        have : (0 : ℚ) < (q : ℚ) := by exact_mod_cast hq
        exact mul_pos hp this
      simp only [applyOp, PositionManager.sell, if_neg hs, PositionManager.log_trade]
      linarith

/-- Running a sequence of valid calls from any state with non-negative
available capital keeps the available capital non-negative. -/
theorem runOps_capital_nonneg (ops : List Op) :
    ∀ pm : PositionManager, (∀ op ∈ ops, op.valid) →
    0 ≤ pm.available_capital →
    0 ≤ (runOps pm ops).available_capital := by
  induction ops with
  | nil => intro pm _ h; simpa [runOps]
  | cons op rest ih =>
    intro pm hops h
    exact ih (applyOp pm op)
      (fun o ho => hops o (List.mem_cons_of_mem _ ho))
      (applyOp_capital_nonneg pm op (hops op (List.mem_cons_self op rest)) h)

/-- C6: starting from a fresh ledger with positive initial capital, after
every sequence of buy, sell and updatePrice calls whose arguments satisfy
the preconditions (positive price, positive quantity), the available
capital is non-negative. -/
theorem available_capital_nonneg (c : ℚ) (ops : List Op) (hc : 0 < c)
    (hops : ∀ op ∈ ops, op.valid) :
    0 ≤ (runOps (PositionManager.init c) ops).available_capital :=
  runOps_capital_nonneg ops (PositionManager.init c) hops
    (by simp [PositionManager.init]; exact le_of_lt hc)

/-- Witness for C6 on a concrete run: buy 10 at 100, mark to 110, sell 10
at 110, then an unaffordable buy, from capital 10000. -/
theorem available_capital_nonneg_witness :
    (0 : ℚ) < 10000 ∧
    (∀ op ∈ [Op.buy 1 100 10 "", Op.updatePrice 110, Op.sell 2 110 10 "",
        Op.buy 3 10000 2 ""], op.valid) ∧
    0 ≤ (runOps (PositionManager.init 10000)
        [Op.buy 1 100 10 "", Op.updatePrice 110, Op.sell 2 110 10 "",
         Op.buy 3 10000 2 ""]).available_capital := by
  have h1 : (0 : ℚ) < 10000 := by norm_num
  have h2 : ∀ op ∈ [Op.buy 1 100 10 "", Op.updatePrice 110,
      Op.sell 2 110 10 "", Op.buy 3 10000 2 ""], op.valid := by
    simp [Op.valid]
  exact ⟨h1, h2, available_capital_nonneg 10000 _ h1 h2⟩

/-- One valid ledger call preserves the invariant that the lot quantities
in `holdings` sum to `position`: a successful buy appends a lot of
exactly the bought quantity, and a successful sell consumes exactly the
sold quantity FIFO from the front of the lot list. -/
theorem applyOp_holdingsSum (pm : PositionManager) (op : Op)
    (hop : op.valid) (hinv : holdingsSum pm.holdings = pm.position) :
    holdingsSum (applyOp pm op).holdings = (applyOp pm op).position := by
  cases op with
  | updatePrice p => simpa [applyOp, PositionManager.update_price]
  | buy t p q r =>
    by_cases hb : pm.available_capital < p * (q : ℚ)
    · simpa [applyOp, PositionManager.buy, hb]
    · simp only [applyOp, PositionManager.buy, if_neg hb,
        PositionManager.log_trade, holdingsSum_append, holdingsSum_cons,
        holdingsSum_nil, hinv]
      omega
  | sell t p q r =>
    by_cases hs : pm.position < q
    · simpa [applyOp, PositionManager.sell, hs]
    · obtain ⟨hp, hq⟩ := hop
      have h0 : 0 ≤ q := le_of_lt hq
      have hle : q ≤ holdingsSum pm.holdings := by
        rw [hinv]; exact not_lt.mp hs
      simp only [applyOp, PositionManager.sell, if_neg hs,
        PositionManager.log_trade, update_holdings]
      rw [holdingsSum_update_holdings_go pm.holdings q h0 hle, hinv]

/-- Running a sequence of valid calls preserves the holdings-sum
invariant. -/
theorem runOps_holdingsSum (ops : List Op) :
    ∀ pm : PositionManager, (∀ op ∈ ops, op.valid) →
    holdingsSum pm.holdings = pm.position →
    holdingsSum (runOps pm ops).holdings = (runOps pm ops).position := by
  induction ops with
  | nil => intro pm _ hinv; simpa [runOps]
  | cons op rest ih =>
    intro pm hops hinv
    exact ih (applyOp pm op)
      (fun o ho => hops o (List.mem_cons_of_mem _ ho))
      (applyOp_holdingsSum pm op (hops op (List.mem_cons_self op rest)) hinv)

/-- C10: after every sequence of buy, sell and updatePrice calls with
positive price and quantity, starting from a fresh ledger, the sum of
the quantities of the lots in `holdings` equals `position`. -/
theorem holdings_sum_eq_position (c : ℚ) (ops : List Op)
    (hops : ∀ op ∈ ops, op.valid) :
    holdingsSum (runOps (PositionManager.init c) ops).holdings
      = (runOps (PositionManager.init c) ops).position :=
  runOps_holdingsSum ops (PositionManager.init c) hops
    (by simp [PositionManager.init, holdingsSum])

/-- Witness for C10 on a run that exercises FIFO consumption across lot
boundaries: buys of 10 and 4, then a sell of 11 which empties the first
lot and truncates the second. -/
theorem holdings_sum_eq_position_witness :
    (∀ op ∈ [Op.buy 1 100 10 "", Op.buy 2 50 4 "", Op.sell 3 110 11 "",
        Op.updatePrice 120], op.valid) ∧
    holdingsSum (runOps (PositionManager.init 10000)
        [Op.buy 1 100 10 "", Op.buy 2 50 4 "", Op.sell 3 110 11 "",
         Op.updatePrice 120]).holdings
      = (runOps (PositionManager.init 10000)
        [Op.buy 1 100 10 "", Op.buy 2 50 4 "", Op.sell 3 110 11 "",
         Op.updatePrice 120]).position := by
  have h : ∀ op ∈ [Op.buy 1 100 10 "", Op.buy 2 50 4 "",
      Op.sell 3 110 11 "", Op.updatePrice 120], op.valid := by
    simp [Op.valid]
  exact ⟨h, holdings_sum_eq_position 10000 _ h⟩
